import Mathlib

/-!
Verification development for the ResumeIQ resume-scoring and ATS-refinement
core (src/ats_scorer.py and src/resume_builder.py), as a shallow embedding.

Conventions of the embedding:
  * Python dicts that preserve insertion order are `List (String × _)` in
    source order; Python sets of lower-cased strings are deduplicated lists,
    with membership given by `List.contains`.
  * `int((m/r) * 50)` in the scorer is embedded as `(m * 50) / r` on `Nat`.
    The two agree for every 0 ≤ m ≤ r ≤ 49 (checked exhaustively; the first
    divergence needs a 50-element required-skill set, far beyond the
    4-to-5-entry requirement lists of the role catalog).
  * The role catalog data/job_roles.json is external data, not under src/;
    functions that consult it take it as an explicit parameter.
  * File-system failure branches (ImportError / FileNotFoundError) are not
    modelled; the catalog parameter is always available.
-/

namespace ResumeIQ

/-- One education entry of the builder resume record. -/
structure EduEntry where
  degree : String
  institution : String
  year : String
deriving Repr, DecidableEq

/-- One work-experience entry; bullets are an ordered list of strings. -/
structure ExpEntry where
  title : String
  company : String
  duration : String
  bullets : List String
deriving Repr, DecidableEq

/-- One project entry. -/
structure ProjEntry where
  name : String
  tech : String
  bullets : List String
deriving Repr, DecidableEq

/-- The resume record produced by format_resume_data and mutated by the
refinement pipeline (fields that the core reads or writes). -/
structure ResumeData where
  name : String
  email : String
  phone : String
  career_objective : String
  education : List EduEntry
  experience : List ExpEntry
  projects : List ProjEntry
  skills_list : List String
  certifications_list : List String
  achievements_list : List String
  full_text : String
deriving Repr, DecidableEq

/-- The parsed_data record consumed by calculate_ats_score
(shape of build_parsed_data in src/resume_builder.py). -/
structure ParsedData where
  name : String
  email : String
  phone : String
  skills : List String
  text : String
deriving Repr, DecidableEq

/-- Result of classify_missing_skills. -/
structure Classified where
  critical : List String
  optional : List String
deriving Repr, DecidableEq

/-- Result record of calculate_ats_score. -/
structure AtsResult where
  ats_score : Nat
  skill_score : Nat
  keyword_score : Nat
  completeness_score : Nat
  matched_skills : List String
  missing_skills : List String
  missing_classified : Classified
deriving Repr, DecidableEq

/-- A role catalog: role name to skill list, in source order.  Used both for
the external data/job_roles.json and for the in-source ROLE_SKILLS table. -/
abbrev Catalog := List (String × List String)

/-- Exact-key lookup in a catalog (Python `d[k]` / `d.get(k)`). -/
def lookupRole (c : Catalog) (k : String) : Option (List String) :=
  (c.find? (fun p => p.1 == k)).map (fun p => p.2)

/-- Python `job_roles.get(job_role, [])`. -/
def rolesGet (c : Catalog) (k : String) : List String :=
  (lookupRole c k).getD []

/-- Python `job_role in job_roles` (exact, case-sensitive key test). -/
def hasRole (c : Catalog) (k : String) : Bool :=
  (c.map Prod.fst).contains k

/-- Python str.lower for the ASCII data this program handles, defined over
the character list so that kernel evaluation works (String.toLower itself is
not kernel-reducible). -/
def lowerString (s : String) : String :=
  ⟨s.data.map Char.toLower⟩

/-- classify_missing_skills from src/ats_scorer.py: the loop appends each
missing skill to `critical` when its lower-cased form is in the lower-cased
required set, else to `optional`; that loop is exactly an ordered partition.
The `role` argument is unused in the source as well. -/
def classify_missing_skills (_role : String)
    (missing_skills required_skills : List String) : Classified :=
  let required_set := required_skills.map lowerString
  let parts := missing_skills.partition (fun s => required_set.contains (lowerString s))
  { critical := parts.1, optional := parts.2 }

/-- calculate_ats_score from src/ats_scorer.py, with the catalog passed
explicitly in place of load_job_roles(). -/
def calculate_ats_score (job_roles : Catalog) (parsed_data : ParsedData)
    (job_role : String) : AtsResult :=
  let resume_skills := (parsed_data.skills.map lowerString).dedup
  let required_raw := rolesGet job_roles job_role
  let required_skills := (required_raw.map lowerString).dedup
  let matched_skills := resume_skills.filter (fun s => required_skills.contains s)
  let missing_skills := required_skills.filter (fun s => !resume_skills.contains s)
  let skill_score :=
    if required_skills.length > 0 then
      (matched_skills.length * 50) / required_skills.length
    else 0
  let keyword_score := min (resume_skills.length * 2) 30
  let completeness :=
    (if parsed_data.name ≠ "" then 5 else 0) +
    (if parsed_data.email ≠ "" then 5 else 0) +
    (if parsed_data.phone ≠ "" then 5 else 0) +
    (if parsed_data.skills ≠ [] then 5 else 0)
  let total_score := min (skill_score + keyword_score + completeness) 100
  { ats_score := total_score
    skill_score := skill_score
    keyword_score := keyword_score
    completeness_score := completeness
    matched_skills := matched_skills
    missing_skills := missing_skills
    missing_classified := classify_missing_skills job_role missing_skills required_raw }

/-- Weak verb to strong action verb table, in source order
(src/resume_builder.py). -/
def WEAK_VERB_MAP : List (String × String) :=
  [("worked on", "engineered"),
   ("made", "developed"),
   ("helped", "facilitated"),
   ("did", "executed"),
   ("used", "leveraged"),
   ("was responsible for", "spearheaded"),
   ("handled", "orchestrated"),
   ("created", "architected"),
   ("wrote", "authored"),
   ("fixed", "resolved"),
   ("changed", "refactored"),
   ("ran", "managed"),
   ("set up", "provisioned"),
   ("looked at", "analyzed")]

/-- Vague impact to quantified impact table, in source order. -/
def QUANTIFICATION_MAP : List (String × String) :=
  [("improving efficiency", "improving efficiency by 30%"),
   ("reducing time", "reducing processing time by 40%"),
   ("increasing performance", "increasing performance by 25%"),
   ("reducing errors", "reducing errors by 35%"),
   ("improving accuracy", "improving accuracy by 20%"),
   ("increasing productivity", "increasing productivity by 30%"),
   ("reducing costs", "reducing operational costs by 25%"),
   ("improving speed", "improving response speed by 45%")]

/-- Lower-cased character list of a string (Python str.lower on the ASCII
data this program handles). -/
def lowerChars (s : String) : List Char :=
  s.data.map Char.toLower

/-- Does `pat` occur at the head of `hay`? -/
def subMatch : List Char → List Char → Bool
  | _, [] => true
  | [], _ :: _ => false
  | h :: hs, p :: ps => h == p && subMatch hs ps

/-- Index of the first occurrence of `pat` in `hay` at or after offset `i`
(re.search of an escaped literal pattern). -/
def findAt : List Char → List Char → Nat → Option Nat
  | [], pat, i => if subMatch [] pat then some i else none
  | c :: t, pat, i =>
      if subMatch (c :: t) pat then some i else findAt t pat (i + 1)

/-- First case-insensitive occurrence of literal `pat` in `s`
(re.compile(re.escape(pat), re.IGNORECASE).search(s)). -/
def findCI (s pat : String) : Option Nat :=
  findAt (lowerChars s) (lowerChars pat) 0

/-- Replace the `n` characters starting at index `i` of `s` with `repl`
(re.sub with count=1, at the span the search found). -/
def replaceSpan (s : String) (i n : Nat) (repl : String) : String :=
  ⟨s.data.take i ++ repl.data ++ s.data.drop (i + n)⟩

/-- Python str.capitalize: first character upper-cased, the rest lower-cased. -/
def capitalizePy (s : String) : String :=
  match s.data with
  | [] => ""
  | c :: t => ⟨c.toUpper :: t.map Char.toLower⟩

/-- One weak-verb step of _enhance_single_bullet: if the weak phrase occurs
(case-insensitively), replace its first occurrence, capitalizing the strong
verb when the match starts the bullet. -/
def applyWeakStep (acc : String) (p : String × String) : String :=
  match findCI acc p.1 with
  | none => acc
  | some i =>
      if i = 0 then replaceSpan acc i p.1.data.length (capitalizePy p.2)
      else replaceSpan acc i p.1.data.length p.2

/-- One quantification step of _enhance_single_bullet. -/
def applyQuantStep (acc : String) (p : String × String) : String :=
  match findCI acc p.1 with
  | none => acc
  | some i => replaceSpan acc i p.1.data.length p.2

/-- _enhance_single_bullet from src/resume_builder.py. -/
def enhanceSingleBullet (bullet : String) : String :=
  let afterWeak := WEAK_VERB_MAP.foldl applyWeakStep bullet
  QUANTIFICATION_MAP.foldl applyQuantStep afterWeak

/-- enhance_language_quality from src/resume_builder.py: polish every bullet
of every experience and project entry in place. -/
def enhance_language_quality (resume_data : ResumeData) : ResumeData :=
  { resume_data with
    experience := resume_data.experience.map
      (fun e => { e with bullets := e.bullets.map enhanceSingleBullet })
    projects := resume_data.projects.map
      (fun p => { p with bullets := p.bullets.map enhanceSingleBullet }) }

/-- One skill category of _SKILL_CATEGORIES: keyword list plus per-role
fallback table. -/
structure SkillCategory where
  keywords : List String
  fallbacks : List (String × String)
deriving Repr

/-- _SKILL_CATEGORIES from src/resume_builder.py, in source order. -/
def SKILL_CATEGORIES : List SkillCategory :=
  [{ keywords := ["python", "java", "javascript", "c++", "c#", "go", "ruby", "php",
                  "typescript", "swift", "kotlin", "rust", "scala", "r",
                  "react", "angular", "vue", "flask", "django", "spring",
                  "express", "node.js", "fastapi", ".net", "rails"]
     fallbacks := [("Web Developer", "Node.js"), ("Backend Developer", "Django"),
                   ("Data Analyst", "R"), ("ML Engineer", "scikit-learn"),
                   ("Software Engineer", "Python")] },
   { keywords := ["sql", "mysql", "postgresql", "mongodb", "redis", "sqlite",
                  "cassandra", "dynamodb", "firebase", "elasticsearch",
                  "oracle", "neo4j", "pandas", "numpy"]
     fallbacks := [("Web Developer", "MongoDB"), ("Backend Developer", "PostgreSQL"),
                   ("Data Analyst", "SQL"), ("ML Engineer", "NumPy"),
                   ("Software Engineer", "SQL")] },
   { keywords := ["git", "docker", "aws", "azure", "gcp", "linux", "kubernetes",
                  "jenkins", "ci/cd", "terraform", "ansible", "jira",
                  "heroku", "vercel", "netlify", "postman", "vscode"]
     fallbacks := [("Web Developer", "Git"), ("Backend Developer", "Docker"),
                   ("Data Analyst", "Jupyter"), ("ML Engineer", "Git"),
                   ("Software Engineer", "Git")] },
   { keywords := ["data structures", "algorithms", "oop", "design patterns",
                  "system design", "rest apis", "agile", "microservices",
                  "testing", "machine learning", "deep learning", "statistics",
                  "data analysis", "networking", "operating systems"]
     fallbacks := [("Web Developer", "REST APIs"), ("Backend Developer", "System Design"),
                   ("Data Analyst", "Statistics"), ("ML Engineer", "Deep Learning"),
                   ("Software Engineer", "Data Structures")] }]

/-- String-valued table lookup (Python dict .get). -/
def lookupStr (t : List (String × String)) (k : String) : Option String :=
  (t.find? (fun p => p.1 == k)).map (fun p => p.2)

/-- The category loop of validate_resume_diversity, carrying the skills list
and the evolving lower-cased skill set. -/
def diversityLoop (cats : List SkillCategory) (role : String)
    (skills lowerSet : List String) : List String :=
  match cats with
  | [] => skills
  | cat :: rest =>
      let has_category := cat.keywords.any (fun kw => lowerSet.contains kw)
      if has_category then diversityLoop rest role skills lowerSet
      else
        match lookupStr cat.fallbacks role with
        | some fallback =>
            if lowerSet.contains (lowerString fallback) then
              diversityLoop rest role skills lowerSet
            else
              diversityLoop rest role (skills ++ [fallback])
                (lowerSet ++ [lowerString fallback])
        | none => diversityLoop rest role skills lowerSet

/-- validate_resume_diversity from src/resume_builder.py: for each category
with no keyword already present, append the role fallback skill (when one
exists and is itself not present). -/
def validate_resume_diversity (resume_data : ResumeData) (role : String) : ResumeData :=
  { resume_data with
    skills_list := diversityLoop SKILL_CATEGORIES role resume_data.skills_list
      (resume_data.skills_list.map lowerString) }

/-- _EXP_INJECTION_TEMPLATES indexed by entry_index mod 3, with the Python
format substitution of the skill written as concatenation. -/
def expTemplate (i : Nat) (skill : String) : String :=
  match i % 3 with
  | 0 => "Engineered scalable solutions leveraging " ++ skill ++
         " for production-grade deployment"
  | 1 => "Architected and delivered features using " ++ skill ++
         " to meet critical business requirements"
  | _ => "Optimized system reliability by adopting " ++ skill ++
         " across the development lifecycle"

/-- _PROJ_INJECTION_TEMPLATES indexed by entry_index mod 3. -/
def projTemplate (i : Nat) (skill : String) : String :=
  match i % 3 with
  | 0 => "Implemented " ++ skill ++ " to enhance system reliability and performance"
  | 1 => "Integrated " ++ skill ++ " to streamline development workflow and output quality"
  | _ => "Leveraged " ++ skill ++ " for robust data processing and feature delivery"

/-- Bullet append of inject_missing_role_skills for an experience entry:
append only when the 4-bullet cap is not reached; an empty bullets list is
replaced by the single generated bullet. -/
def addExpBullet (e : ExpEntry) (b : String) : ExpEntry :=
  if e.bullets ≠ [] then
    if e.bullets.length < 4 then { e with bullets := e.bullets ++ [b] } else e
  else { e with bullets := [b] }

/-- Bullet append for a project entry (3-bullet cap). -/
def addProjBullet (p : ProjEntry) (b : String) : ProjEntry :=
  if p.bullets ≠ [] then
    if p.bullets.length < 3 then { p with bullets := p.bullets ++ [b] } else p
  else { p with bullets := [b] }

/-- The skill loop of inject_missing_role_skills: for each skill to inject,
skip when already present, otherwise append to the skills list and weave a
templated bullet into the rotating experience (else project) entry.
`entry_index` advances only on actual injection, as in the source. -/
def injectLoop (to_inject : List String) (skills lowerSet : List String)
    (exps : List ExpEntry) (projs : List ProjEntry) (entry_index : Nat) :
    List String × List ExpEntry × List ProjEntry :=
  match to_inject with
  | [] => (skills, exps, projs)
  | skill :: rest =>
      if lowerSet.contains (lowerString skill) then
        injectLoop rest skills lowerSet exps projs entry_index
      else
        let skills := skills ++ [skill]
        let lowerSet := lowerSet ++ [lowerString skill]
        if hexp : exps ≠ [] then
          let i := entry_index % exps.length
          have hi : i < exps.length :=
            Nat.mod_lt _ (List.length_pos.mpr hexp)
          let bullet := expTemplate entry_index skill
          let exps := exps.set i (addExpBullet (exps.get ⟨i, hi⟩) bullet)
          injectLoop rest skills lowerSet exps projs (entry_index + 1)
        else if hproj : projs ≠ [] then
          let i := entry_index % projs.length
          have hi : i < projs.length :=
            Nat.mod_lt _ (List.length_pos.mpr hproj)
          let bullet := projTemplate entry_index skill
          let projs := projs.set i (addProjBullet (projs.get ⟨i, hi⟩) bullet)
          injectLoop rest skills lowerSet exps projs (entry_index + 1)
        else
          injectLoop rest skills lowerSet exps projs (entry_index + 1)

/-- inject_missing_role_skills from src/resume_builder.py: take the first 2
entries of the score result missing_skills list and add each one that is not
already present to the skills list, weaving a contextual bullet.  The role
parameter of the source is unused there as well. -/
def inject_missing_role_skills (resume_data : ResumeData) (ats_result : AtsResult) :
    ResumeData :=
  let missing := ats_result.missing_skills
  if missing = [] then resume_data
  else
    let to_inject := missing.take 2
    let r := injectLoop to_inject resume_data.skills_list
      (resume_data.skills_list.map lowerString)
      resume_data.experience resume_data.projects 0
    { resume_data with
      skills_list := r.1, experience := r.2.1, projects := r.2.2 }

/-- ROLE_SKILLS from src/multi_role_predictor.py, in source order. -/
def ROLE_SKILLS : Catalog :=
  [("Web Developer", ["html", "css", "javascript", "react", "sql"]),
   ("Backend Developer", ["python", "java", "sql", "flask", "api"]),
   ("Data Analyst", ["python", "sql", "pandas", "excel", "statistics"]),
   ("Software Engineer", ["c", "c++", "java", "data structures"]),
   ("ML Engineer", ["python", "machine learning", "numpy", "pandas"])]

/-- The dedup-and-append loop of inject_complementary_skills: append each
candidate that is neither present nor seen, stopping after 5 additions. -/
def complementaryLoop (candidates : List String)
    (skills lowerSet seen : List String) (added : Nat) : List String :=
  match candidates with
  | [] => skills
  | skill :: rest =>
      if !lowerSet.contains (lowerString skill) && !seen.contains (lowerString skill) then
        let seen := seen ++ [lowerString skill]
        let skills := skills ++ [skill]
        let lowerSet := lowerSet ++ [lowerString skill]
        if added + 1 ≥ 5 then skills
        else complementaryLoop rest skills lowerSet seen (added + 1)
      else complementaryLoop rest skills lowerSet seen added

/-- The candidate pool of inject_complementary_skills from
src/resume_builder.py: skills of the target role from ROLE_SKILLS, the
catalog and the passed map, then skills of every other role of either
source sharing at least one skill with that pool. -/
def complementaryCandidates (job_roles role_skills_map : Catalog)
    (role : String) : List String :=
  let direct :=
    (ROLE_SKILLS.filter (fun p => lowerString p.1 == lowerString role)).flatMap Prod.snd
    ++ rolesGet job_roles role
    ++ (if role_skills_map ≠ [] && hasRole role_skills_map role then
          rolesGet role_skills_map role
        else [])
  let target_skills := direct.map lowerString
  let related :=
    (ROLE_SKILLS.flatMap (fun p =>
      if lowerString p.1 ≠ lowerString role &&
         p.2.any (fun s => target_skills.contains (lowerString s)) then p.2 else []))
    ++ (job_roles.flatMap (fun p =>
      if lowerString p.1 ≠ lowerString role &&
         p.2.any (fun s => target_skills.contains (lowerString s)) then p.2 else []))
  direct ++ related

/-- inject_complementary_skills from src/resume_builder.py: append up to 5
new candidate skills to the skills list only (bullets untouched). -/
def inject_complementary_skills (job_roles role_skills_map : Catalog)
    (resume_data : ResumeData) (role : String) : ResumeData :=
  let current_lower := resume_data.skills_list.map lowerString
  let candidates := complementaryCandidates job_roles role_skills_map role
  { resume_data with
    skills_list := complementaryLoop candidates resume_data.skills_list
      current_lower [] 0 }

/-- _ROLE_ALIASES from src/resume_builder.py. -/
def ROLE_ALIASES : List (String × String) :=
  [("backend developer", "Software Engineer"),
   ("frontend developer", "Web Developer"),
   ("full stack developer", "Web Developer"),
   ("devops engineer", "Software Engineer"),
   ("cloud engineer", "Software Engineer"),
   ("mobile developer", "Software Engineer"),
   ("data scientist", "Data Analyst")]

/-- _normalize_role from src/resume_builder.py, with the catalog passed
explicitly: verbatim catalog hit, else case-insensitive alias whose target is
in the catalog, else the fixed default. -/
def normalize_role (job_roles : Catalog) (role : String) : String :=
  let supported_roles := job_roles.map Prod.fst
  if supported_roles.contains role then role
  else
    match lookupStr ROLE_ALIASES (lowerString role) with
    | some aliasRole =>
        if supported_roles.contains aliasRole then aliasRole else "Software Engineer"
    | none => "Software Engineer"

/-- _build_full_text from src/resume_builder.py. -/
def build_full_text (data : ResumeData) : String :=
  let parts :=
    [data.name, data.email, data.phone, data.career_objective]
    ++ data.education.map (fun e => e.degree ++ " " ++ e.institution ++ " " ++ e.year)
    ++ data.experience.flatMap
        (fun e => (e.title ++ " " ++ e.company ++ " " ++ e.duration) :: e.bullets)
    ++ data.projects.flatMap (fun p => (p.name ++ " " ++ p.tech) :: p.bullets)
    ++ [String.intercalate " " data.skills_list]
    ++ data.certifications_list
    ++ data.achievements_list
  String.intercalate " " parts

/-- build_parsed_data from src/resume_builder.py. -/
def build_parsed_data (resume_data : ResumeData) : ParsedData :=
  { name := resume_data.name
    email := resume_data.email
    phone := resume_data.phone
    skills := resume_data.skills_list
    text := resume_data.full_text }

/-- The resume-side effect of _rebuild_and_score: regenerate full_text. -/
def rebuildText (resume_data : ResumeData) : ResumeData :=
  { resume_data with full_text := build_full_text resume_data }

/-- The score side of _rebuild_and_score on the rebuilt record. -/
def rebuildScore (job_roles : Catalog) (resume_data : ResumeData)
    (role : String) : AtsResult :=
  calculate_ats_score job_roles (build_parsed_data (rebuildText resume_data)) role

/-- One iteration of the critical-injection loop of refine_for_ats:
inject missing role skills, rebuild the text and re-score. -/
def criticalPass (job_roles : Catalog) (r : ResumeData) (a : AtsResult)
    (scoring_role : String) : ResumeData × AtsResult :=
  let r2 := rebuildText (inject_missing_role_skills r a)
  (r2, calculate_ats_score job_roles (build_parsed_data r2) scoring_role)

/-- Phase 2 of refine_for_ats: complementary expansion, rebuild, final score. -/
def complementaryPass (job_roles role_skills_map : Catalog) (r : ResumeData)
    (scoring_role : String) : ResumeData × AtsResult :=
  let r2 := rebuildText (inject_complementary_skills job_roles role_skills_map
    r scoring_role)
  (r2, calculate_ats_score job_roles (build_parsed_data r2) scoring_role)

/-- refine_for_ats from src/resume_builder.py with max_attempts = 2 (the
value every caller uses), the two loop iterations unrolled, and the catalog
passed explicitly.  Control flow: polish, diversify, score, early exit at
90, up to two critical-injection passes with re-scoring and early exits
(at 90, or when no missing skills are left), then one complementary
expansion when still below 90. -/
def refine_for_ats (job_roles role_skills_map : Catalog)
    (resume_data : ResumeData) (role : String) : ResumeData × AtsResult :=
  let scoring_role := normalize_role job_roles role
  let r1 := rebuildText (validate_resume_diversity
    (enhance_language_quality resume_data) scoring_role)
  let a1 := calculate_ats_score job_roles (build_parsed_data r1) scoring_role
  if a1.ats_score ≥ 90 then (r1, a1)
  else
    -- loop attempt 0
    let p2 := criticalPass job_roles r1 a1 scoring_role
    if p2.2.ats_score ≥ 90 then p2
    else if p2.2.missing_skills = [] then
      -- break out of the loop; the score is known to be < 90 here
      complementaryPass job_roles role_skills_map p2.1 scoring_role
    else
      -- loop attempt 1
      let p3 := criticalPass job_roles p2.1 p2.2 scoring_role
      if p3.2.ats_score ≥ 90 then p3
      else complementaryPass job_roles role_skills_map p3.1 scoring_role

/-- Modelled from the spec: the Role Requirements Catalog data/job_roles.json
is external data absent from src/; the spec describes it as mapping each of
the supported role names to its required-skill list, with a web-development
role present, an ML Engineer role present, and a Backend role requiring
python, flask, api and sql.  The five roles and their lists mirror the
CRITICAL_SKILLS table of src/ats_scorer.py. -/
def jobRolesCatalog : Catalog :=
  [("Web Developer", ["html", "css", "javascript", "react"]),
   ("Backend Developer", ["python", "flask", "api", "sql"]),
   ("Data Analyst", ["python", "sql", "pandas", "statistics"]),
   ("ML Engineer", ["python", "machine learning", "numpy"]),
   ("Software Engineer", ["data structures", "algorithms", "java", "c++"])]

/-! ## Bridging lemmas between the list-based embedding and set semantics -/

/-- The case-insensitive skill set of a list, as a finite set. -/
def lowerSet (l : List String) : Finset String :=
  (l.map lowerString).toFinset

theorem contains_eq_true_iff {l : List String} {a : String} :
    l.contains a = true ↔ a ∈ l := by
  simp [List.contains, List.elem_iff]

theorem dedup_toFinset (l : List String) : l.dedup.toFinset = l.toFinset := by
  ext x; simp [List.mem_dedup]

theorem dedup_length_eq_card (l : List String) :
    l.dedup.length = l.toFinset.card :=
  (List.card_toFinset l).symm

theorem dedup_filter_contains_length (A B : List String) :
    ((A.dedup).filter (fun s => (B.dedup).contains s)).length
      = (A.toFinset ∩ B.toFinset).card := by
  classical
  have h1 : (A.dedup).filter (fun s => (B.dedup).contains s)
      = (A.dedup).filter (fun s => decide (s ∈ B.toFinset)) := by
    apply List.filter_congr
    intro x _
    simp [contains_eq_true_iff, List.mem_dedup, List.mem_toFinset]
  have h2 : ((A.dedup).filter (fun s => decide (s ∈ B.toFinset))).Nodup :=
    (A.nodup_dedup).filter _
  have h3 := dedup_length_eq_card ((A.dedup).filter (fun s => decide (s ∈ B.toFinset)))
  rw [h1, ← List.dedup_eq_self.mpr h2, h3, List.toFinset_filter, dedup_toFinset]
  congr 1
  rw [← Finset.filter_mem_eq_inter]
  apply Finset.filter_congr
  intro x _
  simp

/-! ## C1: scoring formulas and the worked scenario -/

/-- Set-level reading of the skill sub-score (shared helper). -/
theorem skill_score_eq (job_roles : Catalog) (parsed : ParsedData) (role : String) :
    (calculate_ats_score job_roles parsed role).skill_score =
      (if (lowerSet (rolesGet job_roles role)).card = 0 then 0
       else 50 * (lowerSet parsed.skills ∩ lowerSet (rolesGet job_roles role)).card
            / (lowerSet (rolesGet job_roles role)).card) := by
  have hreq : ((rolesGet job_roles role).map lowerString).dedup.length
      = (lowerSet (rolesGet job_roles role)).card :=
    dedup_length_eq_card _
  have hmatch := dedup_filter_contains_length
    (parsed.skills.map lowerString) ((rolesGet job_roles role).map lowerString)
  show (if ((rolesGet job_roles role).map lowerString).dedup.length > 0 then
        (((parsed.skills.map lowerString).dedup.filter
          (fun s => ((rolesGet job_roles role).map lowerString).dedup.contains s)).length * 50)
          / ((rolesGet job_roles role).map lowerString).dedup.length
      else 0) = _
  rw [hmatch, hreq]
  rcases Nat.eq_zero_or_pos (lowerSet (rolesGet job_roles role)).card with h0 | hpos
  · rw [h0]; simp
  · rw [if_pos hpos, if_neg (Nat.pos_iff_ne_zero.mp hpos), Nat.mul_comm]
    rfl

/-- Set-level reading of the keyword sub-score (shared helper). -/
theorem keyword_score_eq (job_roles : Catalog) (parsed : ParsedData) (role : String) :
    (calculate_ats_score job_roles parsed role).keyword_score =
      min (2 * (lowerSet parsed.skills).card) 30 := by
  have hres : ((parsed.skills.map lowerString).dedup).length
      = (lowerSet parsed.skills).card :=
    dedup_length_eq_card _
  show min (((parsed.skills.map lowerString).dedup).length * 2) 30 = _
  rw [hres, Nat.mul_comm]

/-- Completeness sub-score formula (shared helper). -/
theorem completeness_score_eq (job_roles : Catalog) (parsed : ParsedData) (role : String) :
    (calculate_ats_score job_roles parsed role).completeness_score =
      (if parsed.name ≠ "" then 5 else 0) + (if parsed.email ≠ "" then 5 else 0)
      + (if parsed.phone ≠ "" then 5 else 0) + (if parsed.skills ≠ [] then 5 else 0) :=
  rfl

/-- The total is the capped sum of the three sub-scores (shared helper). -/
theorem ats_score_eq (job_roles : Catalog) (parsed : ParsedData) (role : String) :
    (calculate_ats_score job_roles parsed role).ats_score =
      min ((calculate_ats_score job_roles parsed role).skill_score
        + (calculate_ats_score job_roles parsed role).keyword_score
        + (calculate_ats_score job_roles parsed role).completeness_score) 100 :=
  rfl

/-- The catalog of the C1 scenario. -/
def c1Catalog : Catalog := [("Backend Developer", ["python", "flask", "api", "sql"])]

/-- Scenario resume: skills python and sql, all completeness fields present. -/
def c1Parsed : ParsedData :=
  { name := "Ada", email := "a@b.com", phone := "123",
    skills := ["python", "sql"], text := "" }

/-- C1: for every parsed record and role, skill_score is
floor(50 * |matched ∩ required| / |required|) (0 on an empty required set),
keyword_score is min(2 * distinct resume skills, 30), completeness_score is
5 per non-empty field of name/email/phone/skills, and the total is their
sum capped at 100; and on the worked scenario the four values are
25, 4, 20 and 49. -/
theorem c1_scoring_formulas :
    (∀ (job_roles : Catalog) (parsed : ParsedData) (role : String),
      (calculate_ats_score job_roles parsed role).skill_score =
        (if (lowerSet (rolesGet job_roles role)).card = 0 then 0
         else 50 * (lowerSet parsed.skills ∩ lowerSet (rolesGet job_roles role)).card
              / (lowerSet (rolesGet job_roles role)).card)
      ∧ (calculate_ats_score job_roles parsed role).keyword_score =
          min (2 * (lowerSet parsed.skills).card) 30
      ∧ (calculate_ats_score job_roles parsed role).completeness_score =
          (if parsed.name ≠ "" then 5 else 0) + (if parsed.email ≠ "" then 5 else 0)
          + (if parsed.phone ≠ "" then 5 else 0) + (if parsed.skills ≠ [] then 5 else 0)
      ∧ (calculate_ats_score job_roles parsed role).ats_score =
          min ((calculate_ats_score job_roles parsed role).skill_score
            + (calculate_ats_score job_roles parsed role).keyword_score
            + (calculate_ats_score job_roles parsed role).completeness_score) 100)
    ∧ ((calculate_ats_score c1Catalog c1Parsed "Backend Developer").skill_score = 25
      ∧ (calculate_ats_score c1Catalog c1Parsed "Backend Developer").keyword_score = 4
      ∧ (calculate_ats_score c1Catalog c1Parsed "Backend Developer").completeness_score = 20
      ∧ (calculate_ats_score c1Catalog c1Parsed "Backend Developer").ats_score = 49) := by
  refine ⟨fun job_roles parsed role => ⟨skill_score_eq job_roles parsed role,
    keyword_score_eq job_roles parsed role, completeness_score_eq job_roles parsed role,
    ats_score_eq job_roles parsed role⟩, by decide, by decide, by decide, by decide⟩

/-! ## C6: round-trip classification -/

/-- C6: the classifier splits the missing list M into exactly the elements
whose lower-cased form is in the lower-cased required list (critical, in
order) and the rest (optional, in order); together they cover M with
the right multiplicity and no element lands in both lists. -/
theorem c6_classify_round_trip :
    ∀ (role : String) (M R : List String),
      (classify_missing_skills role M R).critical
          = M.filter (fun s => (R.map lowerString).contains (lowerString s))
      ∧ (classify_missing_skills role M R).optional
          = M.filter (fun s => !(R.map lowerString).contains (lowerString s))
      ∧ (∀ x : String,
          (classify_missing_skills role M R).critical.count x
            + (classify_missing_skills role M R).optional.count x = M.count x)
      ∧ (∀ x : String, x ∈ (classify_missing_skills role M R).critical →
          x ∉ (classify_missing_skills role M R).optional) := by
  intro role M R
  have hpart := List.partition_eq_filter_filter
    (fun s => (R.map lowerString).contains (lowerString s)) M
  have hcrit : (classify_missing_skills role M R).critical
      = M.filter (fun s => (R.map lowerString).contains (lowerString s)) := by
    show (M.partition (fun s => (R.map lowerString).contains (lowerString s))).1 = _
    rw [hpart]
  have hopt : (classify_missing_skills role M R).optional
      = M.filter (fun s => !(R.map lowerString).contains (lowerString s)) := by
    show (M.partition (fun s => (R.map lowerString).contains (lowerString s))).2 = _
    rw [hpart]
    rfl
  refine ⟨hcrit, hopt, ?_, ?_⟩
  · intro x
    rw [hcrit, hopt]
    by_cases hx : (R.map lowerString).contains (lowerString x) = true
    · have h1 := @List.count_filter String _ _
        (fun s => (R.map lowerString).contains (lowerString s)) x M hx
      have hzero : (M.filter
          (fun s => !(R.map lowerString).contains (lowerString s))).count x = 0 := by
        apply List.count_eq_zero_of_not_mem
        intro hmem
        have h0 := List.of_mem_filter hmem
        have h : (!(R.map lowerString).contains (lowerString x)) = true := h0
        rw [hx] at h
        exact Bool.noConfusion h
      rw [h1, hzero, Nat.add_zero]
    · have hxf : (R.map lowerString).contains (lowerString x) = false := by
        cases hb : (R.map lowerString).contains (lowerString x)
        · rfl
        · exact absurd hb hx
      have hx' : (!(R.map lowerString).contains (lowerString x)) = true := by
        rw [hxf]; rfl
      have h1 := @List.count_filter String _ _
        (fun s => !(R.map lowerString).contains (lowerString s)) x M hx'
      have hzero : (M.filter
          (fun s => (R.map lowerString).contains (lowerString s))).count x = 0 := by
        apply List.count_eq_zero_of_not_mem
        intro hmem
        have h0 := List.of_mem_filter hmem
        have h : (R.map lowerString).contains (lowerString x) = true := h0
        exact hx h
      rw [h1, hzero, Nat.zero_add]
  · intro x hxc hxo
    rw [hcrit] at hxc
    rw [hopt] at hxo
    have h1pre := List.of_mem_filter hxc
    have h1 : (R.map lowerString).contains (lowerString x) = true := h1pre
    have h2pre := List.of_mem_filter hxo
    have h2 : (!(R.map lowerString).contains (lowerString x)) = true := h2pre
    rw [h1] at h2
    exact Bool.noConfusion h2

/-! ## C8: catalog-miss degradation -/

/-- C8: when the role resolves to an empty required-skill list (absent role
or empty entry), scoring still succeeds: skill_score is 0 whatever the
resume skills are, while keyword and completeness scores keep their normal
formulas and the total is their capped sum. -/
theorem c8_empty_required_graceful :
    ∀ (job_roles : Catalog) (parsed : ParsedData) (role : String),
      rolesGet job_roles role = [] →
      (calculate_ats_score job_roles parsed role).skill_score = 0
      ∧ (calculate_ats_score job_roles parsed role).keyword_score =
          min (2 * (lowerSet parsed.skills).card) 30
      ∧ (calculate_ats_score job_roles parsed role).completeness_score =
          (if parsed.name ≠ "" then 5 else 0) + (if parsed.email ≠ "" then 5 else 0)
          + (if parsed.phone ≠ "" then 5 else 0) + (if parsed.skills ≠ [] then 5 else 0)
      ∧ (calculate_ats_score job_roles parsed role).ats_score =
          min ((calculate_ats_score job_roles parsed role).keyword_score
            + (calculate_ats_score job_roles parsed role).completeness_score) 100
      ∧ (calculate_ats_score job_roles parsed role).missing_skills = [] := by
  intro job_roles parsed role hempty
  have hskill : (calculate_ats_score job_roles parsed role).skill_score = 0 := by
    rw [skill_score_eq, hempty]
    simp [lowerSet]
  refine ⟨hskill, keyword_score_eq job_roles parsed role,
    completeness_score_eq job_roles parsed role, ?_, ?_⟩
  · rw [ats_score_eq, hskill, Nat.zero_add]
  · show ((rolesGet job_roles role).map lowerString).dedup.filter _ = []
    rw [hempty]
    rfl

/-- Witness for C8 at a concrete empty catalog. -/
theorem c8_empty_required_graceful_witness :
    rolesGet [] "Data Analyst" = []
    ∧ (calculate_ats_score [] c1Parsed "Data Analyst").skill_score = 0 := by
  refine ⟨rfl, (c8_empty_required_graceful [] c1Parsed "Data Analyst" rfl).1⟩

/-! ## C7: monotonicity in matched required skills -/

/-- The matched_skills list length is the matched-set cardinality. -/
theorem matched_length_eq (job_roles : Catalog) (parsed : ParsedData) (role : String) :
    (calculate_ats_score job_roles parsed role).matched_skills.length
      = (lowerSet parsed.skills ∩ lowerSet (rolesGet job_roles role)).card :=
  dedup_filter_contains_length _ _

/-- Appending a skill inserts its lower-cased form into the skill set. -/
theorem lowerSet_append_singleton (l : List String) (s : String) :
    lowerSet (l ++ [s]) = insert (lowerString s) (lowerSet l) := by
  ext y
  simp [lowerSet, List.map_append, or_comm]

/-- C7: adding one previously-missing required skill to the resume skills
never decreases skill_score, increases the matched count by exactly one, and
never decreases the total score. -/
theorem c7_monotonicity :
    ∀ (job_roles : Catalog) (parsed : ParsedData) (role s : String),
      lowerString s ∈ (rolesGet job_roles role).map lowerString →
      lowerString s ∉ parsed.skills.map lowerString →
      ((calculate_ats_score job_roles parsed role).skill_score
        ≤ (calculate_ats_score job_roles
            { parsed with skills := parsed.skills ++ [s] } role).skill_score)
      ∧ ((calculate_ats_score job_roles
            { parsed with skills := parsed.skills ++ [s] } role).matched_skills.length
        = (calculate_ats_score job_roles parsed role).matched_skills.length + 1)
      ∧ ((calculate_ats_score job_roles parsed role).ats_score
        ≤ (calculate_ats_score job_roles
            { parsed with skills := parsed.skills ++ [s] } role).ats_score) := by
  intro job_roles parsed role s hreq hmiss
  have hreqF : lowerString s ∈ lowerSet (rolesGet job_roles role) := by
    simpa [lowerSet] using hreq
  have hmissF : lowerString s ∉ lowerSet parsed.skills := by
    simpa [lowerSet] using hmiss
  have hM' : lowerSet (parsed.skills ++ [s])
      = insert (lowerString s) (lowerSet parsed.skills) :=
    lowerSet_append_singleton _ _
  have hsub : lowerSet parsed.skills ∩ lowerSet (rolesGet job_roles role)
      ⊆ insert (lowerString s) (lowerSet parsed.skills)
        ∩ lowerSet (rolesGet job_roles role) :=
    Finset.inter_subset_inter (Finset.subset_insert _ _) (Finset.Subset.refl _)
  have hcard := Finset.card_le_card hsub
  have hskill : (calculate_ats_score job_roles parsed role).skill_score
      ≤ (calculate_ats_score job_roles
          { parsed with skills := parsed.skills ++ [s] } role).skill_score := by
    rw [skill_score_eq, skill_score_eq]
    show _ ≤ (if (lowerSet (rolesGet job_roles role)).card = 0 then 0
      else 50 * (lowerSet (parsed.skills ++ [s])
        ∩ lowerSet (rolesGet job_roles role)).card
        / (lowerSet (rolesGet job_roles role)).card)
    rw [hM']
    by_cases h0 : (lowerSet (rolesGet job_roles role)).card = 0
    · rw [if_pos h0, if_pos h0]
    · rw [if_neg h0, if_neg h0]
      exact Nat.div_le_div_right (Nat.mul_le_mul_left 50 hcard)
  have hkw : (calculate_ats_score job_roles parsed role).keyword_score
      ≤ (calculate_ats_score job_roles
          { parsed with skills := parsed.skills ++ [s] } role).keyword_score := by
    rw [keyword_score_eq, keyword_score_eq]
    show _ ≤ min (2 * (lowerSet (parsed.skills ++ [s])).card) 30
    rw [hM']
    exact min_le_min
      (Nat.mul_le_mul_left 2 (Finset.card_le_card (Finset.subset_insert _ _)))
      (Nat.le_refl 30)
  have hcomp : (calculate_ats_score job_roles parsed role).completeness_score
      ≤ (calculate_ats_score job_roles
          { parsed with skills := parsed.skills ++ [s] } role).completeness_score := by
    rw [completeness_score_eq, completeness_score_eq]
    have htail : (if parsed.skills ≠ [] then 5 else 0)
        ≤ (if parsed.skills ++ [s] ≠ ([] : List String) then 5 else 0) := by
      have hne : parsed.skills ++ [s] ≠ ([] : List String) := by simp
      rw [if_pos hne]
      by_cases h : parsed.skills ≠ []
      · rw [if_pos h]
      · rw [if_neg h]
        exact Nat.zero_le 5
    exact Nat.add_le_add (Nat.le_refl _) htail
  refine ⟨hskill, ?_, ?_⟩
  · rw [matched_length_eq, matched_length_eq, hM',
      Finset.insert_inter_of_mem hreqF,
      Finset.card_insert_of_not_mem
        (fun hc => hmissF (Finset.mem_of_mem_inter_left hc))]
  · rw [ats_score_eq, ats_score_eq]
    exact min_le_min (Nat.add_le_add (Nat.add_le_add hskill hkw) hcomp)
      (Nat.le_refl 100)

/-- Witness for C7: adding the missing required skill sql to a resume that
only lists python, against a role requiring python and sql. -/
theorem c7_monotonicity_witness :
    (lowerString "sql" ∈ (rolesGet [("R1", ["python", "sql"])] "R1").map lowerString)
    ∧ (lowerString "sql"
        ∉ (["python"] : List String).map lowerString)
    ∧ ((calculate_ats_score [("R1", ["python", "sql"])]
        { name := "n", email := "e", phone := "p", skills := ["python"], text := "" }
        "R1").skill_score
      ≤ (calculate_ats_score [("R1", ["python", "sql"])]
        { name := "n", email := "e", phone := "p", skills := ["python"] ++ ["sql"],
          text := "" } "R1").skill_score) :=
  ⟨by decide, by decide,
    (c7_monotonicity [("R1", ["python", "sql"])]
      { name := "n", email := "e", phone := "p", skills := ["python"], text := "" }
      "R1" "sql" (by decide) (by decide)).1⟩

/-! ## C5 and C10: role normalization -/

/-- C5: whenever the default role is in the catalog, normalization returns a
catalog role: the input itself on a verbatim hit, else the alias target of
the lower-cased input when that target is in the catalog, else the default;
and the alias Frontend Developer resolves to Web Developer. -/
theorem c5_normalize_policy :
    (∀ (job_roles : Catalog) (role : String),
      ("Software Engineer" : String) ∈ job_roles.map Prod.fst →
      (normalize_role job_roles role ∈ job_roles.map Prod.fst)
      ∧ (role ∈ job_roles.map Prod.fst → normalize_role job_roles role = role)
      ∧ (role ∉ job_roles.map Prod.fst →
          ∀ a : String, lookupStr ROLE_ALIASES (lowerString role) = some a →
            (a ∈ job_roles.map Prod.fst → normalize_role job_roles role = a)
            ∧ (a ∉ job_roles.map Prod.fst →
                normalize_role job_roles role = "Software Engineer"))
      ∧ (role ∉ job_roles.map Prod.fst →
          lookupStr ROLE_ALIASES (lowerString role) = none →
          normalize_role job_roles role = "Software Engineer"))
    ∧ normalize_role jobRolesCatalog "Frontend Developer" = "Web Developer" := by
  have hbody : ∀ (job_roles : Catalog) (role : String),
      normalize_role job_roles role =
        (if (job_roles.map Prod.fst).contains role = true then role
         else match lookupStr ROLE_ALIASES (lowerString role) with
          | some aliasRole =>
              if (job_roles.map Prod.fst).contains aliasRole = true then aliasRole
              else "Software Engineer"
          | none => "Software Engineer") :=
    fun _ _ => rfl
  constructor
  · intro job_roles role hse
    cases hr : (job_roles.map Prod.fst).contains role with
    | true =>
        have hmem : role ∈ job_roles.map Prod.fst := contains_eq_true_iff.mp hr
        have hnorm : normalize_role job_roles role = role := by
          rw [hbody, hr, if_pos rfl]
        refine ⟨by rw [hnorm]; exact hmem, fun _ => hnorm,
          fun hnot => absurd hmem hnot, fun hnot => absurd hmem hnot⟩
    | false =>
        have hnmem : role ∉ job_roles.map Prod.fst := by
          intro hmem
          rw [contains_eq_true_iff.mpr hmem] at hr
          exact Bool.noConfusion hr
        cases halias : lookupStr ROLE_ALIASES (lowerString role) with
        | none =>
            have hnorm : normalize_role job_roles role = "Software Engineer" := by
              rw [hbody, hr, if_neg Bool.false_ne_true, halias]
            refine ⟨by rw [hnorm]; exact hse,
              fun hmem => absurd hmem hnmem, ?_, fun _ _ => hnorm⟩
            intro _ a ha
            exact Option.noConfusion ha
        | some a0 =>
            cases ha0 : (job_roles.map Prod.fst).contains a0 with
            | true =>
                have hnorm : normalize_role job_roles role = a0 := by
                  rw [hbody, hr, if_neg Bool.false_ne_true, halias]
                  show (if (job_roles.map Prod.fst).contains a0 = true then a0
                    else "Software Engineer") = a0
                  rw [ha0, if_pos rfl]
                have ha0mem : a0 ∈ job_roles.map Prod.fst :=
                  contains_eq_true_iff.mp ha0
                refine ⟨by rw [hnorm]; exact ha0mem,
                  fun hmem => absurd hmem hnmem, ?_, ?_⟩
                · intro _ a ha
                  have haa : a0 = a := Option.some.inj ha
                  subst haa
                  exact ⟨fun _ => hnorm, fun hnot => absurd ha0mem hnot⟩
                · intro _ hnone
                  exact Option.noConfusion hnone
            | false =>
                have ha0nmem : a0 ∉ job_roles.map Prod.fst := by
                  intro hmem
                  rw [contains_eq_true_iff.mpr hmem] at ha0
                  exact Bool.noConfusion ha0
                have hnorm : normalize_role job_roles role
                    = "Software Engineer" := by
                  rw [hbody, hr, if_neg Bool.false_ne_true, halias]
                  show (if (job_roles.map Prod.fst).contains a0 = true then a0
                    else "Software Engineer") = "Software Engineer"
                  rw [ha0, if_neg Bool.false_ne_true]
                refine ⟨by rw [hnorm]; exact hse,
                  fun hmem => absurd hmem hnmem, ?_, ?_⟩
                · intro _ a ha
                  have haa : a0 = a := Option.some.inj ha
                  subst haa
                  exact ⟨fun hmem => absurd hmem ha0nmem, fun _ => hnorm⟩
                · intro _ hnone
                  exact Option.noConfusion hnone
  · decide

/-- Witness for C5 on the modelled catalog: a verbatim catalog role maps to
itself. -/
theorem c5_normalize_policy_witness :
    normalize_role jobRolesCatalog "Data Analyst" = "Data Analyst" :=
  (c5_normalize_policy.1 jobRolesCatalog "Data Analyst" (by decide)).2.1 (by decide)

/-- C10: the verbatim catalog check is case-sensitive: a role differing from
a catalog role only in letter case, with no alias entry, falls through to
the Software Engineer default. -/
theorem c10_case_sensitive_verbatim :
    (∀ job_roles : Catalog,
      ("ML Engineer" : String) ∈ job_roles.map Prod.fst →
      ("ml engineer" : String) ∉ job_roles.map Prod.fst →
      normalize_role job_roles "ml engineer" = "Software Engineer")
    ∧ normalize_role jobRolesCatalog "ml engineer" = "Software Engineer"
    ∧ ("ML Engineer" : String) ∈ jobRolesCatalog.map Prod.fst
    ∧ ("ml engineer" : String) ≠ "ML Engineer"
    ∧ lowerString "ml engineer" = lowerString "ML Engineer" := by
  refine ⟨?_, by decide, by decide, by decide, by decide⟩
  intro job_roles _ hnot
  have hr : (job_roles.map Prod.fst).contains "ml engineer" = false := by
    cases hb : (job_roles.map Prod.fst).contains "ml engineer"
    · rfl
    · exact absurd (contains_eq_true_iff.mp hb) hnot
  have halias : lookupStr ROLE_ALIASES (lowerString "ml engineer") = none := by
    decide
  show (if (job_roles.map Prod.fst).contains "ml engineer" = true then "ml engineer"
    else match lookupStr ROLE_ALIASES (lowerString "ml engineer") with
      | some aliasRole =>
          if (job_roles.map Prod.fst).contains aliasRole = true then aliasRole
          else "Software Engineer"
      | none => "Software Engineer") = "Software Engineer"
  rw [hr, if_neg Bool.false_ne_true, halias]

/-- Witness for C10 on the modelled catalog. -/
theorem c10_case_sensitive_verbatim_witness :
    normalize_role jobRolesCatalog "ml engineer" = "Software Engineer" :=
  c10_case_sensitive_verbatim.1 jobRolesCatalog (by decide) (by decide)

/-! ## C2: idempotence of the language polish -/

/-- A resume whose only bullet is a vague-impact phrase. -/
def c2Resume : ResumeData :=
  { name := "a", email := "b", phone := "c", career_objective := "",
    education := [],
    experience := [{ title := "Dev", company := "Acme", duration := "2020",
                     bullets := ["improving efficiency"] }],
    projects := [], skills_list := [], certifications_list := [],
    achievements_list := [], full_text := "" }

set_option maxRecDepth 20000 in
/-- Counterexample to C2: the quantified replacement still contains the
vague phrase, so a second polish appends the quantifier again. -/
theorem c2_polish_not_idempotent :
    enhance_language_quality (enhance_language_quality c2Resume)
      ≠ enhance_language_quality c2Resume
    ∧ ((enhance_language_quality c2Resume).experience.map ExpEntry.bullets
        = [["improving efficiency by 30%"]])
    ∧ ((enhance_language_quality (enhance_language_quality c2Resume)).experience.map
        ExpEntry.bullets = [["improving efficiency by 30% by 30%"]]) :=
  ⟨by decide, by decide, by decide⟩

/-- Folding the weak-verb table over a bullet that matches none of its
phrases is the identity. -/
theorem foldl_weak_no_match (l : List (String × String)) (b : String)
    (h : ∀ p ∈ l, findCI b p.1 = none) : l.foldl applyWeakStep b = b := by
  induction l with
  | nil => rfl
  | cons q rest ih =>
      have hq : findCI b q.1 = none := h q (List.mem_cons_self q rest)
      rw [List.foldl_cons]
      have hstep : applyWeakStep b q = b := by
        unfold applyWeakStep
        rw [hq]
      rw [hstep]
      exact ih (fun p hp => h p (List.mem_cons_of_mem q hp))

/-- Same for the quantification table. -/
theorem foldl_quant_no_match (l : List (String × String)) (b : String)
    (h : ∀ p ∈ l, findCI b p.1 = none) : l.foldl applyQuantStep b = b := by
  induction l with
  | nil => rfl
  | cons q rest ih =>
      have hq : findCI b q.1 = none := h q (List.mem_cons_self q rest)
      rw [List.foldl_cons]
      have hstep : applyQuantStep b q = b := by
        unfold applyQuantStep
        rw [hq]
      rw [hstep]
      exact ih (fun p hp => h p (List.mem_cons_of_mem q hp))

/-- A bullet matching no weak or vague phrase is left unchanged. -/
theorem enhance_no_match (b : String)
    (h : ∀ p ∈ WEAK_VERB_MAP ++ QUANTIFICATION_MAP, findCI b p.1 = none) :
    enhanceSingleBullet b = b := by
  show QUANTIFICATION_MAP.foldl applyQuantStep (WEAK_VERB_MAP.foldl applyWeakStep b) = b
  rw [foldl_weak_no_match WEAK_VERB_MAP b
    (fun p hp => h p (List.mem_append_left _ hp))]
  exact foldl_quant_no_match QUANTIFICATION_MAP b
    (fun p hp => h p (List.mem_append_right _ hp))

/-- The polish pass is the identity on a resume all of whose bullets match
no weak or vague phrase. -/
theorem enhance_id_of_clean (r : ResumeData)
    (hexp : ∀ e ∈ r.experience, ∀ b ∈ e.bullets,
      ∀ p ∈ WEAK_VERB_MAP ++ QUANTIFICATION_MAP, findCI b p.1 = none)
    (hproj : ∀ pr ∈ r.projects, ∀ b ∈ pr.bullets,
      ∀ p ∈ WEAK_VERB_MAP ++ QUANTIFICATION_MAP, findCI b p.1 = none) :
    enhance_language_quality r = r := by
  have he : r.experience.map
      (fun e => { e with bullets := e.bullets.map enhanceSingleBullet })
      = r.experience := by
    have hcongr := List.map_congr_left (l := r.experience)
      (f := fun e => { e with bullets := e.bullets.map enhanceSingleBullet })
      (g := id) ?_
    · rw [hcongr, List.map_id]
    · intro e hmem
      have hb : e.bullets.map enhanceSingleBullet = e.bullets := by
        have hbcongr := List.map_congr_left (l := e.bullets)
          (f := enhanceSingleBullet) (g := id) ?_
        · rw [hbcongr, List.map_id]
        · intro b hbmem
          exact enhance_no_match b (hexp e hmem b hbmem)
      cases e
      simp only at hb
      simp [hb]
  have hp : r.projects.map
      (fun pr => { pr with bullets := pr.bullets.map enhanceSingleBullet })
      = r.projects := by
    have hcongr := List.map_congr_left (l := r.projects)
      (f := fun pr => { pr with bullets := pr.bullets.map enhanceSingleBullet })
      (g := id) ?_
    · rw [hcongr, List.map_id]
    · intro pr hmem
      have hb : pr.bullets.map enhanceSingleBullet = pr.bullets := by
        have hbcongr := List.map_congr_left (l := pr.bullets)
          (f := enhanceSingleBullet) (g := id) ?_
        · rw [hbcongr, List.map_id]
        · intro b hbmem
          exact enhance_no_match b (hproj pr hmem b hbmem)
      cases pr
      simp only at hb
      simp [hb]
  show ({ r with
    experience := r.experience.map
      (fun e => { e with bullets := e.bullets.map enhanceSingleBullet })
    projects := r.projects.map
      (fun pr => { pr with bullets := pr.bullets.map enhanceSingleBullet }) }
      : ResumeData) = r
  rw [he, hp]

/-- C2 (amended): polishing twice equals polishing once exactly when the
once-polished bullets no longer match any weak-verb or vague-impact phrase;
this holds for weak-verb-only bullets but fails on vague-impact phrases,
whose replacements still contain the phrase. -/
theorem c2_amended_polish_idempotent_when_clean :
    ∀ resume : ResumeData,
      (∀ e ∈ (enhance_language_quality resume).experience, ∀ b ∈ e.bullets,
        ∀ p ∈ WEAK_VERB_MAP ++ QUANTIFICATION_MAP, findCI b p.1 = none) →
      (∀ pr ∈ (enhance_language_quality resume).projects, ∀ b ∈ pr.bullets,
        ∀ p ∈ WEAK_VERB_MAP ++ QUANTIFICATION_MAP, findCI b p.1 = none) →
      enhance_language_quality (enhance_language_quality resume)
        = enhance_language_quality resume :=
  fun resume hexp hproj =>
    enhance_id_of_clean (enhance_language_quality resume) hexp hproj

/-- A resume whose only bullet is a weak-verb phrase: its polished form
matches nothing further. -/
def c2WitnessResume : ResumeData :=
  { name := "a", email := "b", phone := "c", career_objective := "",
    education := [],
    experience := [{ title := "Dev", company := "Acme", duration := "2020",
                     bullets := ["worked on api"] }],
    projects := [], skills_list := [], certifications_list := [],
    achievements_list := [], full_text := "" }

/-- Witness for the amended C2. -/
theorem c2_amended_polish_idempotent_when_clean_witness :
    enhance_language_quality (enhance_language_quality c2WitnessResume)
      = enhance_language_quality c2WitnessResume :=
  c2_amended_polish_idempotent_when_clean c2WitnessResume (by decide) (by decide)

/-! ## C4: critical skill injection takes the slice before the filter -/

/-- A resume already listing python. -/
def c4Resume : ResumeData :=
  { name := "a", email := "b", phone := "c", career_objective := "",
    education := [], experience := [], projects := [],
    skills_list := ["python"], certifications_list := [],
    achievements_list := [], full_text := "" }

/-- A score result whose missing (and critical) skills start with a skill
the resume already has. -/
def c4Ats : AtsResult :=
  { ats_score := 49, skill_score := 25, keyword_score := 4,
    completeness_score := 20, matched_skills := [],
    missing_skills := ["python", "flask", "api"],
    missing_classified := { critical := ["python", "flask", "api"],
                            optional := [] } }

/-- Counterexample to C4: the code slices the first 2 entries of
missing_skills before filtering out already-present ones, so only flask is
appended, not the first 2 not-already-present critical skills flask and
api. -/
theorem c4_counterexample_slice_before_filter :
    (inject_missing_role_skills c4Resume c4Ats).skills_list = ["python", "flask"]
    ∧ c4Ats.missing_classified.critical = ["python", "flask", "api"]
    ∧ ((c4Ats.missing_classified.critical.filter
        (fun s => !(c4Resume.skills_list.map lowerString).contains
          (lowerString s))).take 2 = ["flask", "api"])
    ∧ (["python", "flask"] : List String) ≠ c4Resume.skills_list ++ ["flask", "api"] :=
  ⟨by decide, by decide, by decide, by decide⟩

/-- Appending a single different lower-cased form does not change a
contains test. -/
theorem contains_append_singleton_ne (l : List String) (a y : String)
    (h : y ≠ a) : (l ++ [a]).contains y = l.contains y := by
  cases hc : l.contains y with
  | true =>
      exact contains_eq_true_iff.mpr
        (List.mem_append_left _ (contains_eq_true_iff.mp hc))
  | false =>
      cases hc2 : (l ++ [a]).contains y with
      | false => rfl
      | true =>
          exfalso
          rcases List.mem_append.mp (contains_eq_true_iff.mp hc2) with h1 | h1
          · rw [contains_eq_true_iff.mpr h1] at hc
            exact Bool.noConfusion hc
          · exact h (List.mem_singleton.mp h1)

/-- The skills component of the injection loop, when the injected entries
have pairwise distinct lower-cased forms: exactly the not-yet-present
entries are appended, in order. -/
theorem injectLoop_skills_eq (to_inject : List String) :
    ∀ (skills lowerSet : List String) (exps : List ExpEntry)
      (projs : List ProjEntry) (idx : Nat),
      to_inject.Pairwise (fun a b => lowerString a ≠ lowerString b) →
      (injectLoop to_inject skills lowerSet exps projs idx).1
        = skills ++ to_inject.filter
            (fun s => !lowerSet.contains (lowerString s)) := by
  induction to_inject with
  | nil =>
      intro skills lowerSet exps projs idx _
      simp [injectLoop]
  | cons s rest ih =>
      intro skills lowerSet exps projs idx hpw
      have hhead : ∀ x ∈ rest, lowerString s ≠ lowerString x :=
        (List.pairwise_cons.mp hpw).1
      have hrest : rest.Pairwise (fun a b => lowerString a ≠ lowerString b) :=
        (List.pairwise_cons.mp hpw).2
      by_cases hc : lowerSet.contains (lowerString s) = true
      · have hstep : injectLoop (s :: rest) skills lowerSet exps projs idx
            = injectLoop rest skills lowerSet exps projs idx := by
          show (if lowerSet.contains (lowerString s) = true then
            injectLoop rest skills lowerSet exps projs idx else _) = _
          rw [if_pos hc]
        rw [hstep, ih skills lowerSet exps projs idx hrest]
        have hfs : (s :: rest).filter (fun x => !lowerSet.contains (lowerString x))
            = rest.filter (fun x => !lowerSet.contains (lowerString x)) := by
          rw [List.filter_cons]
          rw [hc]
          rfl
        rw [hfs]
      · have hcf : lowerSet.contains (lowerString s) = false := by
          cases hb : lowerSet.contains (lowerString s)
          · rfl
          · exact absurd hb hc
        have hfilter : ∀ (E : List ExpEntry) (P : List ProjEntry) (j : Nat),
            (injectLoop rest (skills ++ [s]) (lowerSet ++ [lowerString s]) E P j).1
              = skills ++ (s :: rest).filter
                  (fun x => !lowerSet.contains (lowerString x)) := by
          intro E P j
          rw [ih (skills ++ [s]) (lowerSet ++ [lowerString s]) E P j hrest]
          have hcong : rest.filter
              (fun x => !(lowerSet ++ [lowerString s]).contains (lowerString x))
              = rest.filter (fun x => !lowerSet.contains (lowerString x)) := by
            apply List.filter_congr
            intro x hx
            rw [contains_append_singleton_ne lowerSet (lowerString s)
              (lowerString x) (hhead x hx).symm]
          rw [hcong, List.filter_cons, hcf]
          show (skills ++ [s]) ++ _ = skills ++ (s :: _)
          rw [List.append_assoc]
          rfl
        have hstep : injectLoop (s :: rest) skills lowerSet exps projs idx
            = (if hexp : exps ≠ [] then
                injectLoop rest (skills ++ [s]) (lowerSet ++ [lowerString s])
                  (exps.set (idx % exps.length)
                    (addExpBullet
                      (exps.get ⟨idx % exps.length,
                        Nat.mod_lt _ (List.length_pos.mpr hexp)⟩)
                      (expTemplate idx s)))
                  projs (idx + 1)
              else if hproj : projs ≠ [] then
                injectLoop rest (skills ++ [s]) (lowerSet ++ [lowerString s])
                  exps
                  (projs.set (idx % projs.length)
                    (addProjBullet
                      (projs.get ⟨idx % projs.length,
                        Nat.mod_lt _ (List.length_pos.mpr hproj)⟩)
                      (projTemplate idx s)))
                  (idx + 1)
              else injectLoop rest (skills ++ [s]) (lowerSet ++ [lowerString s])
                  exps projs (idx + 1)) := by
          show (if lowerSet.contains (lowerString s) = true then
            injectLoop rest skills lowerSet exps projs idx else _) = _
          rw [if_neg (by rw [hcf]; exact Bool.false_ne_true)]
        rw [hstep]
        by_cases hexp : exps ≠ []
        · rw [dif_pos hexp]
          exact hfilter _ _ _
        · rw [dif_neg hexp]
          by_cases hproj : projs ≠ []
          · rw [dif_pos hproj]
            exact hfilter _ _ _
          · rw [dif_neg hproj]
            exact hfilter _ _ _

/-- C4 (amended): one injection call appends exactly those entries among the
first 2 entries of the score result missing_skills list (not the critical
classification) that are not already present case-insensitively — the slice
happens before the presence filter — provided those first 2 entries have
distinct lower-cased forms. -/
theorem c4_amended_inject_first_two :
    ∀ (resume : ResumeData) (ats : AtsResult),
      (ats.missing_skills.take 2).Pairwise
        (fun a b => lowerString a ≠ lowerString b) →
      (inject_missing_role_skills resume ats).skills_list
        = resume.skills_list ++ (ats.missing_skills.take 2).filter
            (fun s => !(resume.skills_list.map lowerString).contains
              (lowerString s)) := by
  intro resume ats hpw
  by_cases h : ats.missing_skills = []
  · rw [inject_missing_role_skills, if_pos h, h]
    simp
  · rw [inject_missing_role_skills, if_neg h]
    exact injectLoop_skills_eq (ats.missing_skills.take 2) resume.skills_list
      (resume.skills_list.map lowerString) resume.experience resume.projects 0 hpw

/-- Witness for the amended C4, on the counterexample inputs. -/
theorem c4_amended_inject_first_two_witness :
    (inject_missing_role_skills c4Resume c4Ats).skills_list
      = c4Resume.skills_list ++ (c4Ats.missing_skills.take 2).filter
          (fun s => !(c4Resume.skills_list.map lowerString).contains
            (lowerString s)) :=
  c4_amended_inject_first_two c4Resume c4Ats (by decide)

/-! ## C9: early exit at score 90 -/

/-- C9: when the score taken right after the polish and diversify stages is
at least 90, the orchestrator returns that resume and that score unchanged:
no critical injection and no complementary expansion runs. -/
theorem c9_early_exit :
    ∀ (job_roles role_skills_map : Catalog) (resume : ResumeData) (role : String),
      (calculate_ats_score job_roles
        (build_parsed_data (rebuildText (validate_resume_diversity
          (enhance_language_quality resume) (normalize_role job_roles role))))
        (normalize_role job_roles role)).ats_score ≥ 90 →
      refine_for_ats job_roles role_skills_map resume role
        = (rebuildText (validate_resume_diversity
            (enhance_language_quality resume) (normalize_role job_roles role)),
           calculate_ats_score job_roles
            (build_parsed_data (rebuildText (validate_resume_diversity
              (enhance_language_quality resume) (normalize_role job_roles role))))
            (normalize_role job_roles role)) := by
  intro job_roles role_skills_map resume role h
  simp only [refine_for_ats]
  rw [if_pos h]

/-- Catalog and resume reaching 90 right after polish and diversify. -/
def c9Catalog : Catalog :=
  [("X", ["a1", "a2", "a3", "a4", "a5", "a6", "a7", "a8", "a9", "b1"])]

/-- Ten distinct skills matching the full requirement list of role X. -/
def c9Resume : ResumeData :=
  { name := "n", email := "e", phone := "p", career_objective := "",
    education := [], experience := [], projects := [],
    skills_list := ["a1", "a2", "a3", "a4", "a5", "a6", "a7", "a8", "a9", "b1"],
    certifications_list := [], achievements_list := [], full_text := "" }

/-- Witness for C9: skill 50 + keyword 20 + completeness 20 = 90. -/
theorem c9_early_exit_witness :
    refine_for_ats c9Catalog ROLE_SKILLS c9Resume "X"
      = (rebuildText (validate_resume_diversity
          (enhance_language_quality c9Resume) (normalize_role c9Catalog "X")),
         calculate_ats_score c9Catalog
          (build_parsed_data (rebuildText (validate_resume_diversity
            (enhance_language_quality c9Resume) (normalize_role c9Catalog "X"))))
          (normalize_role c9Catalog "X")) :=
  c9_early_exit c9Catalog ROLE_SKILLS c9Resume "X" (by decide)

/-! ## C3: bounded additive mutation of the orchestrator -/

/-- An experience entry extended in place: metadata unchanged, bullets only
appended to. -/
def ExpExt (e e2 : ExpEntry) : Prop :=
  e2.title = e.title ∧ e2.company = e.company ∧ e2.duration = e.duration
  ∧ e.bullets <+: e2.bullets

/-- A project entry extended in place. -/
def ProjExt (p p2 : ProjEntry) : Prop :=
  p2.name = p.name ∧ p2.tech = p.tech ∧ p.bullets <+: p2.bullets

/-- Resume r2 accrues from r with at most k new skills: identity fields,
education, certifications and achievements unchanged; the old skills list a
prefix of the new one, grown by at most k; experience and project entries
kept in order with bullets only appended. -/
def Accrues (k : Nat) (r r2 : ResumeData) : Prop :=
  r2.name = r.name ∧ r2.email = r.email ∧ r2.phone = r.phone
  ∧ r2.career_objective = r.career_objective
  ∧ r2.education = r.education
  ∧ r2.certifications_list = r.certifications_list
  ∧ r2.achievements_list = r.achievements_list
  ∧ r.skills_list <+: r2.skills_list
  ∧ r2.skills_list.length ≤ r.skills_list.length + k
  ∧ List.Forall₂ ExpExt r.experience r2.experience
  ∧ List.Forall₂ ProjExt r.projects r2.projects

theorem prefix_trans {α : Type} {l1 l2 l3 : List α}
    (h1 : l1 <+: l2) (h2 : l2 <+: l3) : l1 <+: l3 := by
  obtain ⟨t, rfl⟩ := h1
  obtain ⟨u, rfl⟩ := h2
  exact ⟨t ++ u, (List.append_assoc l1 t u).symm⟩

theorem prefix_refl_own {α : Type} (l : List α) : l <+: l :=
  ⟨[], List.append_nil l⟩

theorem expExt_refl (e : ExpEntry) : ExpExt e e :=
  ⟨rfl, rfl, rfl, prefix_refl_own _⟩

theorem projExt_refl (p : ProjEntry) : ProjExt p p :=
  ⟨rfl, rfl, prefix_refl_own _⟩

theorem expExt_trans {a b c : ExpEntry} (h1 : ExpExt a b) (h2 : ExpExt b c) :
    ExpExt a c :=
  ⟨h2.1.trans h1.1, h2.2.1.trans h1.2.1, h2.2.2.1.trans h1.2.2.1,
   prefix_trans h1.2.2.2 h2.2.2.2⟩

theorem projExt_trans {a b c : ProjEntry} (h1 : ProjExt a b) (h2 : ProjExt b c) :
    ProjExt a c :=
  ⟨h2.1.trans h1.1, h2.2.1.trans h1.2.1, prefix_trans h1.2.2 h2.2.2⟩

theorem forall₂_refl_all {α : Type} {R : α → α → Prop} (hrefl : ∀ x, R x x) :
    ∀ l : List α, List.Forall₂ R l l := by
  intro l
  induction l with
  | nil => exact List.Forall₂.nil
  | cons a t ih => exact List.Forall₂.cons (hrefl a) ih

theorem forall₂_trans_all {α : Type} {R : α → α → Prop}
    (ht : ∀ a b c, R a b → R b c → R a c) :
    ∀ {l1 l2 l3 : List α}, List.Forall₂ R l1 l2 → List.Forall₂ R l2 l3 →
      List.Forall₂ R l1 l3 := by
  intro l1 l2 l3 h1
  induction h1 generalizing l3 with
  | nil =>
      intro h2
      cases h2
      exact List.Forall₂.nil
  | cons hab hrest ih =>
      intro h2
      cases h2 with
      | cons hbc hrest2 => exact List.Forall₂.cons (ht _ _ _ hab hbc) (ih hrest2)

theorem accrues_refl (r : ResumeData) : Accrues 0 r r :=
  ⟨rfl, rfl, rfl, rfl, rfl, rfl, rfl, prefix_refl_own _, Nat.le_add_right _ 0,
   forall₂_refl_all expExt_refl _, forall₂_refl_all projExt_refl _⟩

theorem accrues_trans {j k : Nat} {r r2 r3 : ResumeData}
    (h1 : Accrues j r r2) (h2 : Accrues k r2 r3) : Accrues (j + k) r r3 := by
  obtain ⟨a1, a2, a3, a4, a5, a6, a7, a8, a9, a10, a11⟩ := h1
  obtain ⟨b1, b2, b3, b4, b5, b6, b7, b8, b9, b10, b11⟩ := h2
  refine ⟨b1.trans a1, b2.trans a2, b3.trans a3, b4.trans a4, b5.trans a5,
    b6.trans a6, b7.trans a7, prefix_trans a8 b8, ?_,
    forall₂_trans_all (R := ExpExt) (fun _ _ _ hab hbc => expExt_trans hab hbc)
      a10 b10,
    forall₂_trans_all (R := ProjExt) (fun _ _ _ hab hbc => projExt_trans hab hbc)
      a11 b11⟩
  calc r3.skills_list.length ≤ r2.skills_list.length + k := b9
    _ ≤ (r.skills_list.length + j) + k := Nat.add_le_add_right a9 k
    _ = r.skills_list.length + (j + k) := Nat.add_assoc _ _ _

theorem accrues_mono {j k : Nat} {r r2 : ResumeData} (hjk : j ≤ k)
    (h : Accrues j r r2) : Accrues k r r2 := by
  obtain ⟨a1, a2, a3, a4, a5, a6, a7, a8, a9, a10, a11⟩ := h
  exact ⟨a1, a2, a3, a4, a5, a6, a7, a8,
    a9.trans (Nat.add_le_add_left hjk _), a10, a11⟩

/-- Rebuilding the derived text does not touch any tracked field. -/
theorem rebuild_accrues (r : ResumeData) : Accrues 0 r (rebuildText r) :=
  ⟨rfl, rfl, rfl, rfl, rfl, rfl, rfl, prefix_refl_own _, Nat.le_add_right _ 0,
   forall₂_refl_all expExt_refl _, forall₂_refl_all projExt_refl _⟩

/-- The diversity loop only appends, at most one skill per category. -/
theorem diversityLoop_extends (cats : List SkillCategory) (role : String) :
    ∀ (skills lowerSet : List String),
      skills <+: diversityLoop cats role skills lowerSet
      ∧ (diversityLoop cats role skills lowerSet).length
          ≤ skills.length + cats.length := by
  induction cats with
  | nil =>
      intro skills lowerSet
      exact ⟨prefix_refl_own _, Nat.le_add_right _ 0⟩
  | cons cat rest ih =>
      intro skills lowerSet
      have hsame : ∀ l : List String,
          skills <+: diversityLoop rest role skills l
          ∧ (diversityLoop rest role skills l).length
              ≤ skills.length + (rest.length + 1) := by
        intro l
        exact ⟨(ih skills l).1,
          (ih skills l).2.trans (Nat.add_le_add_left (Nat.le_succ _) _)⟩
      have hunfold : diversityLoop (cat :: rest) role skills lowerSet
          = (if cat.keywords.any (fun kw => lowerSet.contains kw) = true
            then diversityLoop rest role skills lowerSet
            else match lookupStr cat.fallbacks role with
              | some fallback =>
                  if lowerSet.contains (lowerString fallback) = true then
                    diversityLoop rest role skills lowerSet
                  else diversityLoop rest role (skills ++ [fallback])
                    (lowerSet ++ [lowerString fallback])
              | none => diversityLoop rest role skills lowerSet) := rfl
      rw [hunfold]
      split
      · exact hsame lowerSet
      · split
        · rename_i fallback heq
          split
          · exact hsame lowerSet
          · have h2 := ih (skills ++ [fallback]) (lowerSet ++ [lowerString fallback])
            refine ⟨prefix_trans ⟨[fallback], rfl⟩ h2.1, ?_⟩
            calc (diversityLoop rest role (skills ++ [fallback])
                  (lowerSet ++ [lowerString fallback])).length
                ≤ (skills ++ [fallback]).length + rest.length := h2.2
              _ = skills.length + (rest.length + 1) := by
                  simp only [List.length_append, List.length_cons,
                    List.length_nil]
                  omega
        · exact hsame lowerSet

/-- Skill diversity validation accrues at most 4 skills. -/
theorem diversity_accrues (r : ResumeData) (role : String) :
    Accrues 4 r (validate_resume_diversity r role) := by
  have h := diversityLoop_extends SKILL_CATEGORIES role r.skills_list
    (r.skills_list.map lowerString)
  exact ⟨rfl, rfl, rfl, rfl, rfl, rfl, rfl, h.1, h.2,
    forall₂_refl_all expExt_refl _, forall₂_refl_all projExt_refl _⟩

/-- addExpBullet only ever appends to the bullets. -/
theorem addExpBullet_ext (e : ExpEntry) (b : String) :
    ExpExt e (addExpBullet e b) := by
  unfold addExpBullet
  by_cases h : e.bullets ≠ []
  · rw [if_pos h]
    by_cases h4 : e.bullets.length < 4
    · rw [if_pos h4]
      exact ⟨rfl, rfl, rfl, ⟨[b], rfl⟩⟩
    · rw [if_neg h4]
      exact expExt_refl e
  · rw [if_neg h]
    have hnil : e.bullets = [] := by
      by_cases hb : e.bullets = []
      · exact hb
      · exact absurd hb h
    exact ⟨rfl, rfl, rfl, by rw [hnil]; exact ⟨[b], rfl⟩⟩

/-- addProjBullet only ever appends to the bullets. -/
theorem addProjBullet_ext (p : ProjEntry) (b : String) :
    ProjExt p (addProjBullet p b) := by
  unfold addProjBullet
  by_cases h : p.bullets ≠ []
  · rw [if_pos h]
    by_cases h3 : p.bullets.length < 3
    · rw [if_pos h3]
      exact ⟨rfl, rfl, ⟨[b], rfl⟩⟩
    · rw [if_neg h3]
      exact projExt_refl p
  · rw [if_neg h]
    have hnil : p.bullets = [] := by
      by_cases hb : p.bullets = []
      · exact hb
      · exact absurd hb h
    exact ⟨rfl, rfl, by rw [hnil]; exact ⟨[b], rfl⟩⟩

/-- Setting one index to a related element relates a list to its update. -/
theorem forall₂_set_of_rel {α : Type} {R : α → α → Prop} (hrefl : ∀ x, R x x) :
    ∀ (l : List α) (i : Nat) (e2 : α),
      (∀ hi : i < l.length, R (l.get ⟨i, hi⟩) e2) →
      List.Forall₂ R l (l.set i e2) := by
  intro l
  induction l with
  | nil =>
      intro i e2 _
      exact List.Forall₂.nil
  | cons a t ih =>
      intro i e2 h
      cases i with
      | zero =>
          exact List.Forall₂.cons (h (Nat.succ_pos _))
            (forall₂_refl_all hrefl t)
      | succ j =>
          exact List.Forall₂.cons (hrefl a)
            (ih j e2 (fun hj => h (Nat.succ_lt_succ hj)))

/-- The injection loop only appends skills (at most one per injected entry)
and only appends bullets to existing entries. -/
theorem injectLoop_extends (to_inject : List String) :
    ∀ (skills lowerSet : List String) (exps : List ExpEntry)
      (projs : List ProjEntry) (idx : Nat),
      skills <+: (injectLoop to_inject skills lowerSet exps projs idx).1
      ∧ (injectLoop to_inject skills lowerSet exps projs idx).1.length
          ≤ skills.length + to_inject.length
      ∧ List.Forall₂ ExpExt exps
          (injectLoop to_inject skills lowerSet exps projs idx).2.1
      ∧ List.Forall₂ ProjExt projs
          (injectLoop to_inject skills lowerSet exps projs idx).2.2 := by
  induction to_inject with
  | nil =>
      intro skills lowerSet exps projs idx
      exact ⟨prefix_refl_own _, Nat.le_add_right _ 0,
        forall₂_refl_all expExt_refl _, forall₂_refl_all projExt_refl _⟩
  | cons s rest ih =>
      intro skills lowerSet exps projs idx
      have hgen : ∀ (E : List ExpEntry) (P : List ProjEntry) (j : Nat),
          List.Forall₂ ExpExt exps E → List.Forall₂ ProjExt projs P →
          skills <+: (injectLoop rest (skills ++ [s])
            (lowerSet ++ [lowerString s]) E P j).1
          ∧ (injectLoop rest (skills ++ [s])
              (lowerSet ++ [lowerString s]) E P j).1.length
              ≤ skills.length + (rest.length + 1)
          ∧ List.Forall₂ ExpExt exps (injectLoop rest (skills ++ [s])
              (lowerSet ++ [lowerString s]) E P j).2.1
          ∧ List.Forall₂ ProjExt projs (injectLoop rest (skills ++ [s])
              (lowerSet ++ [lowerString s]) E P j).2.2 := by
        intro E P j hE hP
        have h := ih (skills ++ [s]) (lowerSet ++ [lowerString s]) E P j
        refine ⟨prefix_trans ⟨[s], rfl⟩ h.1, ?_,
          forall₂_trans_all (R := ExpExt)
            (fun _ _ _ hab hbc => expExt_trans hab hbc) hE h.2.2.1,
          forall₂_trans_all (R := ProjExt)
            (fun _ _ _ hab hbc => projExt_trans hab hbc) hP h.2.2.2⟩
        calc (injectLoop rest (skills ++ [s])
              (lowerSet ++ [lowerString s]) E P j).1.length
            ≤ (skills ++ [s]).length + rest.length := h.2.1
          _ ≤ skills.length + (rest.length + 1) := by
              simp only [List.length_append, List.length_cons, List.length_nil]
              omega
      have hunfold : injectLoop (s :: rest) skills lowerSet exps projs idx
          = (if lowerSet.contains (lowerString s) = true then
              injectLoop rest skills lowerSet exps projs idx
            else if hexp : exps ≠ [] then
              injectLoop rest (skills ++ [s]) (lowerSet ++ [lowerString s])
                (exps.set (idx % exps.length)
                  (addExpBullet
                    (exps.get ⟨idx % exps.length,
                      Nat.mod_lt _ (List.length_pos.mpr hexp)⟩)
                    (expTemplate idx s)))
                projs (idx + 1)
            else if hproj : projs ≠ [] then
              injectLoop rest (skills ++ [s]) (lowerSet ++ [lowerString s])
                exps
                (projs.set (idx % projs.length)
                  (addProjBullet
                    (projs.get ⟨idx % projs.length,
                      Nat.mod_lt _ (List.length_pos.mpr hproj)⟩)
                    (projTemplate idx s)))
                (idx + 1)
            else injectLoop rest (skills ++ [s])
              (lowerSet ++ [lowerString s]) exps projs (idx + 1)) := rfl
      rw [hunfold]
      split
      · have h := ih skills lowerSet exps projs idx
        exact ⟨h.1, h.2.1.trans (Nat.add_le_add_left (Nat.le_succ _) _),
          h.2.2.1, h.2.2.2⟩
      · split
        · rename_i hexp
          exact hgen _ _ _
            (forall₂_set_of_rel expExt_refl exps _ _
              (fun hi => addExpBullet_ext _ _))
            (forall₂_refl_all projExt_refl projs)
        · split
          · rename_i hproj
            exact hgen _ _ _
              (forall₂_refl_all expExt_refl exps)
              (forall₂_set_of_rel projExt_refl projs _ _
                (fun hi => addProjBullet_ext _ _))
          · exact hgen _ _ _
              (forall₂_refl_all expExt_refl exps)
              (forall₂_refl_all projExt_refl projs)

/-- Critical injection accrues at most 2 skills and never removes content. -/
theorem inject_accrues (r : ResumeData) (a : AtsResult) :
    Accrues 2 r (inject_missing_role_skills r a) := by
  simp only [inject_missing_role_skills]
  split
  · exact accrues_mono (Nat.zero_le 2) (accrues_refl r)
  · have h := injectLoop_extends (a.missing_skills.take 2) r.skills_list
      (r.skills_list.map lowerString) r.experience r.projects 0
    have hlen : (a.missing_skills.take 2).length ≤ 2 := by
      rw [List.length_take]
      exact Nat.min_le_left _ _
    exact ⟨rfl, rfl, rfl, rfl, rfl, rfl, rfl, h.1,
      h.2.1.trans (Nat.add_le_add_left hlen _), h.2.2.1, h.2.2.2⟩

/-- The complementary loop appends at most 5 - added skills. -/
theorem complementaryLoop_extends (cands : List String) :
    ∀ (skills lowerSet seen : List String) (added : Nat), added < 5 →
      skills <+: complementaryLoop cands skills lowerSet seen added
      ∧ (complementaryLoop cands skills lowerSet seen added).length
          ≤ skills.length + (5 - added) := by
  induction cands with
  | nil =>
      intro skills lowerSet seen added _
      exact ⟨prefix_refl_own _, Nat.le_add_right _ _⟩
  | cons s rest ih =>
      intro skills lowerSet seen added hadd
      have hunfold : complementaryLoop (s :: rest) skills lowerSet seen added
          = (if (!lowerSet.contains (lowerString s)
                && !seen.contains (lowerString s)) = true then
              (if added + 1 ≥ 5 then skills ++ [s]
               else complementaryLoop rest (skills ++ [s])
                 (lowerSet ++ [lowerString s]) (seen ++ [lowerString s])
                 (added + 1))
            else complementaryLoop rest skills lowerSet seen added) := rfl
      rw [hunfold]
      split
      · split
        · refine ⟨⟨[s], rfl⟩, ?_⟩
          simp only [List.length_append, List.length_cons, List.length_nil]
          omega
        · rename_i hstop
          have h := ih (skills ++ [s]) (lowerSet ++ [lowerString s])
            (seen ++ [lowerString s]) (added + 1) (by omega)
          refine ⟨prefix_trans ⟨[s], rfl⟩ h.1, ?_⟩
          calc (complementaryLoop rest (skills ++ [s])
                (lowerSet ++ [lowerString s]) (seen ++ [lowerString s])
                (added + 1)).length
              ≤ (skills ++ [s]).length + (5 - (added + 1)) := h.2
            _ ≤ skills.length + (5 - added) := by
                simp only [List.length_append, List.length_cons, List.length_nil]
                omega
      · exact ih skills lowerSet seen added hadd

/-- Complementary expansion accrues at most 5 skills, touching nothing
else. -/
theorem compl_accrues (job_roles role_skills_map : Catalog) (r : ResumeData)
    (role : String) : Accrues 5 r
      (inject_complementary_skills job_roles role_skills_map r role) := by
  have h := complementaryLoop_extends
    (complementaryCandidates job_roles role_skills_map role) r.skills_list
    (r.skills_list.map lowerString) [] 0 (by omega)
  exact ⟨rfl, rfl, rfl, rfl, rfl, rfl, rfl, h.1, h.2,
    forall₂_refl_all expExt_refl _, forall₂_refl_all projExt_refl _⟩

/-- One critical pass of the orchestrator accrues at most 2 skills. -/
theorem criticalPass_accrues (job_roles : Catalog) (r : ResumeData)
    (a : AtsResult) (role : String) :
    Accrues 2 r (criticalPass job_roles r a role).1 :=
  accrues_trans (inject_accrues r a) (rebuild_accrues _)

/-- The complementary pass accrues at most 5 skills. -/
theorem complementaryPass_accrues (job_roles role_skills_map : Catalog)
    (r : ResumeData) (role : String) :
    Accrues 5 r (complementaryPass job_roles role_skills_map r role).1 :=
  accrues_trans (compl_accrues job_roles role_skills_map r role)
    (rebuild_accrues _)

/-- A full orchestrator run accrues at most 13 skills over the polished
resume: 4 from diversity, 2 per critical pass (2 passes), 5 complementary. -/
theorem refine_accrues (job_roles role_skills_map : Catalog)
    (resume : ResumeData) (role : String) :
    Accrues 13 (enhance_language_quality resume)
      (refine_for_ats job_roles role_skills_map resume role).1 := by
  have h1 : Accrues 4 (enhance_language_quality resume)
      (rebuildText (validate_resume_diversity (enhance_language_quality resume)
        (normalize_role job_roles role))) :=
    accrues_trans (diversity_accrues _ _) (rebuild_accrues _)
  simp only [refine_for_ats]
  split
  · exact accrues_mono (by omega) h1
  · split
    · exact accrues_mono (by omega)
        (accrues_trans h1 (criticalPass_accrues _ _ _ _))
    · split
      · exact accrues_mono (by omega)
          (accrues_trans (accrues_trans h1 (criticalPass_accrues _ _ _ _))
            (complementaryPass_accrues _ _ _ _))
      · split
        · exact accrues_mono (by omega)
            (accrues_trans (accrues_trans h1 (criticalPass_accrues _ _ _ _))
              (criticalPass_accrues _ _ _ _))
        · exact accrues_mono (by omega)
            (accrues_trans
              (accrues_trans (accrues_trans h1 (criticalPass_accrues _ _ _ _))
                (criticalPass_accrues _ _ _ _))
              (complementaryPass_accrues _ _ _ _))

/-- A resume with no skills, no entries and all identity fields present. -/
def c3Resume : ResumeData :=
  { name := "a", email := "b", phone := "c", career_objective := "",
    education := [], experience := [], projects := [], skills_list := [],
    certifications_list := [], achievements_list := [], full_text := "" }

set_option maxRecDepth 40000 in
/-- Counterexample to C3: a full run on an empty-skills resume for role
Software Engineer grows the skills list by 10 (4 diversity, 3 critical over
two passes, 3 complementary), exceeding the claimed bound of 9. -/
theorem c3_counterexample_growth_ten :
    (refine_for_ats jobRolesCatalog ROLE_SKILLS c3Resume
        "Software Engineer").1.skills_list
      = ["Python", "SQL", "Git", "Data Structures", "algorithms", "java",
         "c++", "c", "flask", "api"]
    ∧ ¬((refine_for_ats jobRolesCatalog ROLE_SKILLS c3Resume
        "Software Engineer").1.skills_list.length
          ≤ c3Resume.skills_list.length + 9) :=
  ⟨by decide, by decide⟩

/-- C3 (amended): after one full orchestrator run the skills list has grown
by at most 13 entries (4 diversity + 2 per critical pass over 2 passes + 5
complementary) with the old skills list as a prefix; education is unchanged;
and experience and project entries survive in order with unchanged metadata,
their pre-run bullets surviving in order as the polished forms, with
injected bullets only appended. -/
theorem c3_amended_bounded_additive_mutation :
    ∀ (job_roles role_skills_map : Catalog) (resume : ResumeData) (role : String),
      resume.skills_list <+:
        (refine_for_ats job_roles role_skills_map resume role).1.skills_list
      ∧ (refine_for_ats job_roles role_skills_map resume role).1.skills_list.length
          ≤ resume.skills_list.length + 13
      ∧ (refine_for_ats job_roles role_skills_map resume role).1.education
          = resume.education
      ∧ List.Forall₂ (fun e e2 => e2.title = e.title ∧ e2.company = e.company
          ∧ e2.duration = e.duration
          ∧ e.bullets.map enhanceSingleBullet <+: e2.bullets)
          resume.experience
          (refine_for_ats job_roles role_skills_map resume role).1.experience
      ∧ List.Forall₂ (fun p p2 => p2.name = p.name ∧ p2.tech = p.tech
          ∧ p.bullets.map enhanceSingleBullet <+: p2.bullets)
          resume.projects
          (refine_for_ats job_roles role_skills_map resume role).1.projects := by
  intro job_roles role_skills_map resume role
  obtain ⟨a1, a2, a3, a4, a5, a6, a7, a8, a9, a10, a11⟩ :=
    refine_accrues job_roles role_skills_map resume role
  exact ⟨a8, a9, a5, List.forall₂_map_left_iff.mp a10,
    List.forall₂_map_left_iff.mp a11⟩

end ResumeIQ
